import Mathlib

/-!
Verification of the wire decoder, RPC status routing and pagination loop of
the recorder-cli repository (`src/lib/api.js`).

The backend speaks a schema-less positional-array protocol: every response is
a JSON value built from `null`, strings, numbers and nested arrays.  We embed
such values as the inductive type `JVal` and translate the JavaScript parsing
functions (`parseSingleRecording`, `parseRecordingList`, `parseTranscription`,
the response handler of `rpc`, and `listAllRecordings`) into Lean functions
over `JVal`, modelling JavaScript truthiness, array/string indexing, string
coercion and `parseInt` explicitly.

Modelling conventions, noted where they matter:
* JavaScript `undefined` (out-of-bounds index) is collapsed into `JVal.null`;
  the two are observationally identical in every code path of the source
  (both are falsy, neither is a string/array/number, and `x != null` and
  `x || y` treat them alike).
* `NaN` produced by `parseInt` is collapsed into `Option.none` alongside
  JavaScript `null` in the decoded record fields; the two are falsy alike and
  the source never distinguishes them except in the degenerate
  `formatTime(NaN) = "NaN:NaN"` string, which is modelled explicitly where it
  occurs (`formatDurationN`).
* String indexing/truncation is by Lean `Char` rather than UTF-16 code unit;
  identical on BMP text.
-/

/-- A JSON-ish JavaScript value as delivered by the backend: `null` (also
standing for `undefined`, see the header comment), strings, integer numbers
and arrays. -/
inductive JVal where
  | null : JVal
  | str : String → JVal
  | num : Int → JVal
  | arr : List JVal → JVal
deriving Repr

/-- JavaScript truthiness of a `JVal`: `null`/`undefined`, `""` and `0` are
falsy; every array is truthy. -/
def truthy : JVal → Bool
  | .null => false
  | .str s => !s.isEmpty
  | .num n => n != 0
  | .arr _ => true

/-- JavaScript `a || b` on wire values. -/
def jsOr (a b : JVal) : JVal := if truthy a then a else b

/-- `Array.isArray`. -/
def isArr : JVal → Bool
  | .arr _ => true
  | _ => false

/-- `typeof v === "string"`. -/
def isStr : JVal → Bool
  | .str _ => true
  | _ => false

/-- JavaScript indexing `v[i]` as it occurs in the source: element of an
array, character of a string, otherwise `undefined` (collapsed to `null`).
The source never indexes a `null` value (every indexing is guarded by a
truthiness or `Array.isArray` check), so the throwing case is unreachable. -/
def jsIdx : JVal → Nat → JVal
  | .arr xs, i => xs.getD i .null
  | .str s, i => (s.toList.getD i ' ') |> fun c =>
      if i < s.toList.length then .str (String.mk [c]) else .null
  | _, _ => .null

mutual
/-- JavaScript `String(v)` coercion for the values of our model. -/
def jsToString : JVal → String
  | .null => "null"
  | .str s => s
  | .num n => toString n
  | .arr xs => String.intercalate "," (jsToStringList xs)

/-- Array elements stringify with `null`/`undefined` becoming empty. -/
def jsToStringList : List JVal → List String
  | [] => []
  | .null :: rest => "" :: jsToStringList rest
  | v :: rest => jsToString v :: jsToStringList rest
end

def isJsSpace (c : Char) : Bool :=
  c = ' ' || c = '\t' || c = '\n' || c = '\r'

/-- JavaScript `String.prototype.trim` (ASCII whitespace model). -/
def jsTrim (s : String) : String :=
  String.mk (((s.toList.dropWhile isJsSpace).reverse.dropWhile isJsSpace).reverse)

def digitsToNat (cs : List Char) : Nat :=
  cs.foldl (fun a c => a * 10 + (c.toNat - 48)) 0

def isHexDigitChar (c : Char) : Bool :=
  c.isDigit || ('a' ≤ c && c ≤ 'f') || ('A' ≤ c && c ≤ 'F')

def hexDigitVal (c : Char) : Nat :=
  if c.isDigit then c.toNat - 48
  else if 'a' ≤ c && c ≤ 'f' then c.toNat - 87
  else c.toNat - 55

def hexDigitsToNat (cs : List Char) : Nat :=
  cs.foldl (fun a c => a * 16 + hexDigitVal c) 0

/-- JavaScript `parseInt` on a string: skip leading whitespace, optional
sign, `0x`-prefixed hexadecimal or a decimal-digit prefix; `none` is `NaN`. -/
def jsParseIntString (s : String) : Option Int :=
  let cs := s.toList.dropWhile isJsSpace
  let signAndRest : Bool × List Char :=
    match cs with
    | '-' :: rest => (true, rest)
    | '+' :: rest => (false, rest)
    | _ => (false, cs)
  let neg := signAndRest.1
  let body := signAndRest.2
  let mag : Option Nat :=
    match body with
    | '0' :: 'x' :: rest =>
        let ds := rest.takeWhile isHexDigitChar
        if ds.isEmpty then none else some (hexDigitsToNat ds)
    | '0' :: 'X' :: rest =>
        let ds := rest.takeWhile isHexDigitChar
        if ds.isEmpty then none else some (hexDigitsToNat ds)
    | _ =>
        let ds := body.takeWhile Char.isDigit
        if ds.isEmpty then none else some (digitsToNat ds)
  mag.map (fun m => if neg then -(m : Int) else (m : Int))

/-- JavaScript `parseInt(v)`: the argument is first coerced to a string. -/
def jsParseInt (v : JVal) : Option Int :=
  jsParseIntString (jsToString v)

/-- `String.prototype.padStart(2, "0")`. -/
def padStart2 (s : String) : String :=
  String.mk (List.replicate (2 - s.length) '0') ++ s

/-- `formatDuration(ms)` from api.js: `"m:ss"` or `"h:mm:ss"`.  JavaScript
`Math.floor` is `Int.fdiv`; JavaScript `%` (sign of the dividend) is
`Int.tmod`. -/
def formatDuration (ms : Int) : String :=
  let totalSec := Int.fdiv ms 1000
  let hours := Int.fdiv totalSec 3600
  let minutes := Int.fdiv (Int.tmod totalSec 3600) 60
  let seconds := Int.tmod totalSec 60
  if hours > 0 then
    toString hours ++ ":" ++ padStart2 (toString minutes) ++ ":" ++ padStart2 (toString seconds)
  else
    toString minutes ++ ":" ++ padStart2 (toString seconds)

/-- A decoded Recording, as built by `parseSingleRecording`.  Fields that the
source fills with raw wire values (`rec[i] || null`) keep type `JVal`;
numeric fields derived through `parseInt` are `Option Int` with `none` for
JavaScript `null` and for `NaN` (see the header comment).  `createdDate` is
milliseconds since epoch (`none` also covers an Invalid Date). -/
structure Recording where
  internalId : JVal
  title : JVal
  createdSec : Option Int
  createdDate : Option Int
  durationSec : Option Int
  duration : Option String
  latitude : JVal
  longitude : JVal
  location : JVal
  audioFormat : JVal
  cloudId : JVal
  shareId : JVal
deriving Repr

/-- The `try`-block body of `parseSingleRecording`: the field extraction.
On JSON-derived values it cannot throw (every indexing is guarded by a
truthiness check), so it is a total function of the input array. -/
def mkRecording (rec : JVal) : Recording :=
  let durationSec :=
    if truthy (jsIdx rec 3) then jsParseInt (jsIdx (jsIdx rec 3) 0) else none
  { internalId := jsOr (jsIdx rec 0) .null
    title := jsOr (jsIdx rec 1) (.str "Untitled")
    createdSec :=
      if truthy (jsIdx rec 2) then jsParseInt (jsIdx (jsIdx rec 2) 0) else none
    createdDate :=
      if truthy (jsIdx rec 2) then
        (jsParseInt (jsIdx (jsIdx rec 2) 0)).map (fun t => t * 1000)
      else none
    durationSec := durationSec
    duration :=
      match durationSec with
      | some n => if n ≠ 0 then some (formatDuration (n * 1000)) else none
      | none => none
    latitude := jsOr (jsIdx rec 4) .null
    longitude := jsOr (jsIdx rec 5) .null
    location := jsOr (jsIdx rec 6) .null
    audioFormat := jsOr (jsIdx rec 8) .null
    cloudId := jsOr (jsIdx rec 11) .null
    shareId := jsOr (jsIdx rec 13) .null }

/-- `parseSingleRecording(rec)` from api.js: `null` for non-array input,
otherwise the extracted record. -/
def parseSingleRecording (rec : JVal) : Option Recording :=
  match rec with
  | .arr _ => some (mkRecording rec)
  | _ => none

/-- The per-page inner loop of `parseRecordingList`: parse every array-shaped
entry of a page. -/
def parsePageRecs : List JVal → List Recording
  | [] => []
  | rec :: rest =>
    match rec, parseSingleRecording rec with
    | .arr _, some r => r :: parsePageRecs rest
    | .arr _, none => parsePageRecs rest
    | _, _ => parsePageRecs rest

/-- The `for (const page of data)` loop of `parseRecordingList`: for each
array-shaped `page`, a string at index 0 means the page is itself one
recording, an array at index 0 means it is a page of recordings; anything
else is skipped. -/
def parsePagesList : List JVal → List Recording
  | [] => []
  | page :: rest =>
    (match page with
     | .arr elems =>
       if isStr (jsIdx page 0) then
         match parseSingleRecording page with
         | some r => [r]
         | none => []
       else if isArr (jsIdx page 0) then
         parsePageRecs elems
       else []
     | _ => []) ++ parsePagesList rest

/-- `parseRecordingList(data)` from api.js. -/
def parseRecordingList (data : JVal) : List Recording :=
  match data with
  | .arr pages => parsePagesList pages
  | _ => []

/-- A decoded word.  `startMs`/`endMs` keep the JavaScript value shape
`number | null`: the outer `Option` is the `w[2] ? … : null` truthiness
guard (so `none` is `null`), the inner `Option` is the `parseInt` result
(`none` is `NaN`). -/
structure Word where
  word : JVal
  display : JVal
  startMs : Option (Option Int)
  endMs : Option (Option Int)
deriving Repr

/-- The word-loop body of `parseTranscription`: only array-shaped entries
produce a word. -/
def parseWord (w : JVal) : Option Word :=
  match w with
  | .arr _ => some {
      word := jsIdx w 0
      display := jsOr (jsIdx w 1) (jsOr (jsIdx w 0) (.str ""))
      startMs := if truthy (jsIdx w 2) then some (jsParseInt (jsIdx w 2)) else none
      endMs := if truthy (jsIdx w 3) then some (jsParseInt (jsIdx w 3)) else none }
  | _ => none

/-- The `text += display + ' '` accumulation over a raw word list. -/
def wordsText (ws : List JVal) : String :=
  ws.foldl (fun t w =>
    match w with
    | .arr _ => t ++ jsToString (jsOr (jsIdx w 1) (jsOr (jsIdx w 0) (.str ""))) ++ " "
    | _ => t) ""

/-- JavaScript `x || null` on a `number | null` value: `0`, `NaN` and `null`
all yield `null`. -/
def jsNumOrNull : Option (Option Int) → Option Int
  | some (some n) => if n = 0 then none else some n
  | _ => none

/-- `formatDuration` lifted to a possibly-`NaN` argument: JavaScript `NaN`
propagates through the arithmetic and stringifies as `"NaN"`, so
`formatDuration(NaN)` evaluates to `"NaN:NaN"`. -/
def formatDurationN : Option Int → String
  | some ms => formatDuration ms
  | none => "NaN:NaN"

/-- A decoded transcript segment, as pushed by `parseTranscription`.
`startMs`/`endMs` pass through `|| null`, so `NaN` cannot survive and the
plain `Option Int` suffices. -/
structure Segment where
  text : String
  speaker : Option String
  speakerId : Option Int
  lang : JVal
  words : List Word
  startMs : Option Int
  endMs : Option Int
  startTime : Option String
deriving Repr

/-- The shape heuristic of `parseTranscription`: element 0 is an array whose
element 0 is an array whose element 0 is a string. -/
def wordListShape (item : JVal) : Bool :=
  isArr (jsIdx item 0) && isArr (jsIdx (jsIdx item 0) 0) &&
    isStr (jsIdx (jsIdx (jsIdx item 0) 0) 0)

/-- Build the segment pushed for a shape-matching node: `none` when the
accumulated text is whitespace-only (the `if (text.trim())` guard). -/
def mkSegment (item : JVal) : Option Segment :=
  let ws := match jsIdx item 0 with
    | .arr l => l
    | _ => []
  let wordDetails := ws.filterMap parseWord
  let text := wordsText ws
  if (jsTrim text).isEmpty then none
  else
    let speakerId : Option Int := match jsIdx item 1 with
      | .num n => some n
      | _ => none
    let firstStart : Option (Option Int) := match wordDetails.head? with
      | some w => w.startMs
      | none => none
    let lastEnd : Option (Option Int) := match wordDetails.getLast? with
      | some w => w.endMs
      | none => none
    some {
      text := jsTrim text
      speaker := speakerId.map (fun n => "Speaker " ++ toString (n + 1))
      speakerId := speakerId
      lang := jsOr (jsIdx item 2) (.str "")
      words := wordDetails
      startMs := jsNumOrNull firstStart
      endMs := jsNumOrNull lastEnd
      startTime := match firstStart with
        | some jn => some (formatDurationN jn)
        | none => none }

mutual
/-- The recursive `extract` of `parseTranscription`: depth-first search for
word-list-shaped nodes, collecting segments in traversal order. -/
def extractSegs : JVal → List Segment
  | .arr items => extractItems items
  | _ => []

/-- Per-item dispatch of `extract`: non-arrays are skipped, shape matches
yield at most one segment, other arrays are recursed into. -/
def extractItems : List JVal → List Segment
  | [] => []
  | item :: rest =>
    (match item with
     | .arr _ =>
       if wordListShape item then
         match mkSegment item with
         | some s => [s]
         | none => []
       else extractSegs item
     | _ => []) ++ extractItems rest
end

/-- A decoded transcript. -/
structure Transcript where
  segments : List Segment
  fullText : String
deriving Repr

/-- `parseTranscription(data)` from api.js. -/
def parseTranscription (data : JVal) : Transcript :=
  match data with
  | .arr _ =>
    let segs := extractSegs data
    { segments := segs, fullText := String.intercalate "\n" (segs.map (fun s => s.text)) }
  | _ => { segments := [], fullText := "" }

/-- Structured form of the three Error kinds the `rpc` response handler can
reject with. -/
inductive RpcError where
  | authExpired (status : Int)
  | apiError (status : Int) (snippet : String)
  | parseError (snippet : String)
deriving Repr, DecidableEq

/-- The exact message strings of the Error objects the source constructs. -/
def RpcError.message : RpcError → String
  | .authExpired st => "AUTH_EXPIRED: " ++ toString st ++ " - Re-login needed"
  | .apiError st sn => "API_ERROR: " ++ toString st ++ " - " ++ sn
  | .parseError sn => "PARSE_ERROR: " ++ sn

/-- `data.substring(0, 200)` (by `Char`, see the header comment). -/
def jsSubstring200 (s : String) : String := String.mk (s.toList.take 200)

/-- The response end-handler of `rpc()`: status routing, then JSON parsing
of the body.  `JSON.parse` is an external library call, abstracted as the
`parse` oracle (`none` = the body is not valid JSON, i.e. `JSON.parse`
throws). -/
def rpcHandleResponse (parse : String → Option JVal) (statusCode : Int)
    (data : String) : Except RpcError JVal :=
  if statusCode = 401 ∨ statusCode = 403 then .error (.authExpired statusCode)
  else if statusCode ≠ 200 then .error (.apiError statusCode (jsSubstring200 data))
  else
    match parse data with
    | some v => .ok v
    | none => .error (.parseError (jsSubstring200 data))

/-- `all.length >= limit` with `limit` possibly `Infinity` (`none`). -/
def limitReached : Option Nat → Nat → Bool
  | none, _ => false
  | some l, len => l ≤ len

/-- The `while (all.length < limit)` guard. -/
def underLimit : Option Nat → Nat → Bool
  | none, _ => true
  | some l, len => len < l

/-- `Math.min(50, limit - all.length)`. -/
def jsPageSize : Option Nat → Nat → Nat
  | none, _ => 50
  | some l, len => min 50 (l - len)

/-- The date-cutoff test `sinceDate && rec.createdDate && rec.createdDate <
sinceDate` of `listAllRecordings` (`sinceDate` in epoch milliseconds;
`none` covers both an absent `--since` and an Invalid Date, neither of
which can ever satisfy the `<`). -/
def tooOld (sinceDate : Option Int) (r : Recording) : Bool :=
  match sinceDate, r.createdDate with
  | some s, some d => d < s
  | _, _ => false

/-- Truthiness of `last.createdSec` (`null`, `NaN` and `0` are falsy). -/
def createdSecTruthy (r : Recording) : Bool :=
  match r.createdSec with
  | some t => t != 0
  | none => false

/-- The inner `for (const rec of recordings)` loop: pushes records until the
date cutoff fires (second component `true`: the function `return all`s) or
the limit is reached. -/
def pushRecs (sinceDate : Option Int) (limit : Option Nat) :
    List Recording → List Recording → List Recording × Bool
  | all, [] => (all, false)
  | all, r :: rest =>
    if tooOld sinceDate r then (all, true)
    else
      let acc := all ++ [r]
      if limitReached limit acc.length then (acc, false)
      else pushRecs sinceDate limit acc rest

/-- The `while` loop of `listAllRecordings`.  The remote call is the `fetch`
oracle, given the zero-based call index, the requested page size and the
cursor (`none` = the implicit current-time first-page cursor).  `onPage` may
fail (`Except.error`), modelling a throwing callback; the loop body has no
handler for it, so the error propagates.  The result carries the number of
fetches performed.  `fuel` is `200 - page`: the `page >= 200` safety cap
bounds the iteration count, so the fuel-exhausted branch is unreachable from
the entry point. -/
def listAllGo {E : Type} (fetch : Nat → Nat → Option Int → List Recording)
    (limit : Option Nat) (sinceDate : Option Int)
    (onPage : Nat → Nat → Nat → Except E Unit) :
    Nat → Nat → List Recording → Option Int → Nat → Except E (List Recording × Nat)
  | 0, _, all, _, calls => .ok (all, calls)
  | fuel + 1, page, all, cursor, calls =>
    if underLimit limit all.length then
      let recs := fetch page (jsPageSize limit all.length) cursor
      if recs.isEmpty then .ok (all, calls + 1)
      else
        match pushRecs sinceDate limit all recs with
        | (acc, true) => .ok (acc, calls + 1)
        | (acc, false) =>
          match onPage (page + 1) recs.length acc.length with
          | .error e => .error e
          | .ok _ =>
            match recs.getLast? with
            | some last =>
              if createdSecTruthy last then
                if 200 ≤ page + 1 then .ok (acc, calls + 1)
                else listAllGo fetch limit sinceDate onPage fuel (page + 1) acc
                  last.createdSec (calls + 1)
              else .ok (acc, calls + 1)
            | none => .ok (acc, calls + 1)
    else .ok (all, calls)

/-- `listAllRecordings(auth, { limit, since, onPage })` from api.js, over the
`fetch` oracle.  Returns the accumulated records plus the number of page
fetches issued, or the error a throwing `onPage` callback propagated. -/
def listAllRecordings {E : Type} (fetch : Nat → Nat → Option Int → List Recording)
    (limit : Option Nat) (sinceDate : Option Int)
    (onPage : Nat → Nat → Nat → Except E Unit) : Except E (List Recording × Nat) :=
  listAllGo fetch limit sinceDate onPage 200 0 [] none 0

/-- A benign (non-throwing) `onPage` callback. -/
def okCb : Nat → Nat → Nat → Except Unit Unit := fun _ _ _ => .ok ()

/-- The scripted `GetRecordingList` response of the end-to-end scenario. -/
def c2raw : JVal := .arr [.arr [.arr [.str "id1", .str "Meeting A",
  .arr [.str "1700000000", .str "0"], .arr [.str "120", .str "0"],
  .null, .null, .null, .null, .null, .null, .null, .str "cloud1", .null, .str "share1"]]]

/-- The word-list-shaped node of the transcription scenario. -/
def c3node : JVal := .arr [
  .arr [.arr [.str "hi", .str "Hi,", .num 100, .num 300],
        .arr [.str "there", .str "there.", .num 300, .num 600]],
  .num 0, .str "en"]

/-- One wrapping level above `c3node`. -/
def c3level1 : JVal := .arr [c3node]

/-- The scripted raw transcription response of the end-to-end scenario. -/
def c3raw : JVal := .arr [c3level1]

/-- The transcription scenario with a `null` speaker index. -/
def c3rawNullSpeaker : JVal := .arr [.arr [.arr [
  .arr [.arr [.str "hi", .str "Hi,", .num 100, .num 300]], .null, .str "en"]]]

/-- A transcription response whose single word carries `"0"` timestamps. -/
def c9raw : JVal := .arr [.arr [
  .arr [.arr [.str "hi", .str "Hi", .str "0", .str "0"]], .num 0, .str "en"]]

/-- Claim C1 (counterexample): an array of wrong arity with a non-array at
indices 2 and 3 is malformed, yet `parseSingleRecording` does not return
null on it — it returns a defaulted record. -/
theorem c1_malformed_array_not_null :
    parseSingleRecording (JVal.arr [.str "id1", .str "T", .num 5, .str "x"]) ≠ none :=
  fun h => Option.noConfusion h

/-- Claim C1 (amended): `parseSingleRecording` returns null exactly for
non-array input; for every array input — wrong arity and wrong element
types included — no exception propagates and a record is returned. -/
theorem c1_null_iff_nonarray (v : JVal) :
    parseSingleRecording v = none ↔ isArr v = false := by
  cases v <;> simp [parseSingleRecording, isArr]

/-- Claim C2: decoding the scripted `GetRecordingList` response yields
exactly one Recording with title `"Meeting A"`, duration 120 seconds,
creation second 1700000000, cloudId `"cloud1"` and shareId `"share1"`. -/
theorem c2_recordingList_scenario :
    ∃ r : Recording, parseRecordingList c2raw = [r] ∧
      r.title = JVal.str "Meeting A" ∧ r.durationSec = some 120 ∧
      r.createdSec = some 1700000000 ∧ r.cloudId = JVal.str "cloud1" ∧
      r.shareId = JVal.str "share1" :=
  ⟨_, rfl, rfl, rfl, rfl, rfl, rfl⟩

/-- Claim C3: decoding the scripted transcription response yields exactly
one segment with text `"Hi, there."`, speaker label `"Speaker 1"` (from
zero-based index 0), language `"en"`, startMs 100 and endMs 600; the shape
search fails at the first wrapping level and matches one recursion level
down; a `null` speaker index yields no speaker label. -/
theorem c3_transcription_scenario :
    (∃ s : Segment, (parseTranscription c3raw).segments = [s] ∧
      s.text = "Hi, there." ∧ s.speaker = some "Speaker 1" ∧
      s.speakerId = some 0 ∧ s.lang = JVal.str "en" ∧
      s.startMs = some 100 ∧ s.endMs = some 600) ∧
    wordListShape c3level1 = false ∧ wordListShape c3node = true ∧
    (parseTranscription c3rawNullSpeaker).segments.map (fun s => s.speaker) = [none] :=
  ⟨⟨_, rfl, rfl, rfl, rfl, rfl, rfl, rfl⟩, rfl, rfl, rfl⟩

/-- Claim C9: a word whose wire start/end time is the number 0 decodes with
`startMs`/`endMs` null (the `w[2] ? … : null` truthiness guard), and a
segment whose first word parsed to time 0 (wire string `"0"`) gets segment
`startMs`/`endMs` null through `|| null`. -/
theorem c9_zero_timestamps_null :
    (∀ a b : JVal, ∃ w : Word,
      parseWord (JVal.arr [a, b, .num 0, .num 0]) = some w ∧
      w.startMs = none ∧ w.endMs = none) ∧
    (∃ s : Segment, (parseTranscription c9raw).segments = [s] ∧
      s.words.map (fun w => w.startMs) = [some (some 0)] ∧
      s.words.map (fun w => w.endMs) = [some (some 0)] ∧
      s.startMs = none ∧ s.endMs = none) := by
  constructor
  · intro a b
    exact ⟨_, rfl, rfl, rfl⟩
  · exact ⟨_, rfl, rfl, rfl, rfl, rfl⟩

/-- Claim C10: every array input produces a (non-null) record; title
defaults to `"Untitled"` when index 1 is missing, null or the empty string,
and the raw-valued fields default to null when their index is missing or
falsy; only non-array input yields null. -/
theorem c10_array_input_defaults :
    (∀ l : List JVal, ∃ r : Recording, parseSingleRecording (JVal.arr l) = some r ∧
      ((jsIdx (JVal.arr l) 1 = JVal.null ∨ jsIdx (JVal.arr l) 1 = JVal.str "") →
        r.title = JVal.str "Untitled") ∧
      (truthy (jsIdx (JVal.arr l) 0) = false → r.internalId = JVal.null) ∧
      (truthy (jsIdx (JVal.arr l) 4) = false → r.latitude = JVal.null) ∧
      (truthy (jsIdx (JVal.arr l) 5) = false → r.longitude = JVal.null) ∧
      (truthy (jsIdx (JVal.arr l) 6) = false → r.location = JVal.null) ∧
      (truthy (jsIdx (JVal.arr l) 8) = false → r.audioFormat = JVal.null) ∧
      (truthy (jsIdx (JVal.arr l) 11) = false → r.cloudId = JVal.null) ∧
      (truthy (jsIdx (JVal.arr l) 13) = false → r.shareId = JVal.null)) ∧
    (∀ v : JVal, parseSingleRecording v = none → isArr v = false) := by
  constructor
  · intro l
    refine ⟨mkRecording (JVal.arr l), rfl, ?_, ?_, ?_, ?_, ?_, ?_, ?_, ?_⟩
    · intro h
      have ht : truthy (jsIdx (JVal.arr l) 1) = false := by
        rcases h with h | h <;> rw [h] <;> rfl
      show jsOr (jsIdx (JVal.arr l) 1) (JVal.str "Untitled") = JVal.str "Untitled"
      simp [jsOr, ht]
    all_goals
      intro h
      show jsOr _ JVal.null = JVal.null
      simp [jsOr, h]
  · intro v hv
    cases v <;> simp_all [parseSingleRecording, isArr]

/-- Claim C10 (witness): the empty array decodes to a record with the
documented defaults. -/
theorem c10_array_input_defaults_witness :
    ∃ r : Recording, parseSingleRecording (JVal.arr []) = some r ∧
      r.title = JVal.str "Untitled" ∧ r.shareId = JVal.null := by
  obtain ⟨r, h, ht, h0, h4, h5, h6, h8, h11, h13⟩ := c10_array_input_defaults.1 []
  exact ⟨r, h, ht (Or.inl rfl), h13 rfl⟩

/-- Claim C7: for every input, the decoded transcript's `fullText` is the
segments' texts joined by a newline — a pure function of `segments` — and
it is the empty string when there are no segments. -/
theorem c7_fullText_derived :
    (∀ d : JVal, (parseTranscription d).fullText =
      String.intercalate "\n" ((parseTranscription d).segments.map (fun s => s.text))) ∧
    (∀ d : JVal, (parseTranscription d).segments = [] →
      (parseTranscription d).fullText = "") := by
  have h1 : ∀ d : JVal, (parseTranscription d).fullText =
      String.intercalate "\n" ((parseTranscription d).segments.map (fun s => s.text)) := by
    intro d
    cases d <;> rfl
  refine ⟨h1, fun d hd => ?_⟩
  rw [h1 d, hd]
  rfl

/-- Claim C7 (witness): a non-array response decodes to no segments and
empty full text. -/
theorem c7_fullText_derived_witness :
    (parseTranscription JVal.null).fullText = "" :=
  c7_fullText_derived.2 JVal.null rfl

/-- Claim C6: the rpc response handler rejects 401/403 as AuthExpired, any
other non-200 status as ApiError carrying the status and the response
snippet truncated to 200 characters, and a 200 response whose body fails to
parse as JSON as ParseError; a parseable 200 body resolves; a 403 outcome
is distinct from a 500 outcome. -/
theorem c6_rpc_status_routing :
    (∀ (parse : String → Option JVal) (st : Int) (data : String),
      st = 401 ∨ st = 403 →
      rpcHandleResponse parse st data = .error (.authExpired st)) ∧
    (∀ (parse : String → Option JVal) (st : Int) (data : String),
      ¬(st = 401 ∨ st = 403) → st ≠ 200 →
      rpcHandleResponse parse st data = .error (.apiError st (jsSubstring200 data))) ∧
    (∀ (parse : String → Option JVal) (data : String), parse data = none →
      rpcHandleResponse parse 200 data = .error (.parseError (jsSubstring200 data))) ∧
    (∀ (parse : String → Option JVal) (data : String) (v : JVal), parse data = some v →
      rpcHandleResponse parse 200 data = .ok v) ∧
    (∀ (parse : String → Option JVal) (d1 d2 : String),
      rpcHandleResponse parse 403 d1 ≠ rpcHandleResponse parse 500 d2) := by
  refine ⟨?_, ?_, ?_, ?_, ?_⟩
  · intro parse st data h
    unfold rpcHandleResponse
    rw [if_pos h]
  · intro parse st data h1 h2
    unfold rpcHandleResponse
    rw [if_neg h1, if_pos h2]
  · intro parse data h
    unfold rpcHandleResponse
    rw [if_neg (by decide), if_neg (by decide), h]
  · intro parse data v h
    unfold rpcHandleResponse
    rw [if_neg (by decide), if_neg (by decide), h]
  · intro parse d1 d2
    simp [rpcHandleResponse]

/-- Claim C6 (witness): concrete statuses route to the documented error
kinds. -/
theorem c6_rpc_status_routing_witness :
    rpcHandleResponse (fun _ => none) 401 "body" = .error (.authExpired 401) ∧
    rpcHandleResponse (fun _ => none) 500 "oops" =
      .error (.apiError 500 (jsSubstring200 "oops")) ∧
    rpcHandleResponse (fun _ => none) 200 "notjson" =
      .error (.parseError (jsSubstring200 "notjson")) ∧
    rpcHandleResponse (fun _ => some (JVal.num 1)) 200 "1" = .ok (JVal.num 1) ∧
    rpcHandleResponse (fun _ => none) 403 "x" ≠ rpcHandleResponse (fun _ => none) 500 "y" :=
  ⟨c6_rpc_status_routing.1 _ 401 _ (Or.inl rfl),
   c6_rpc_status_routing.2.1 _ 500 _ (by decide) (by decide),
   c6_rpc_status_routing.2.2.1 _ _ rfl,
   c6_rpc_status_routing.2.2.2.1 _ _ _ rfl,
   c6_rpc_status_routing.2.2.2.2 _ _ _⟩

/-- Every array input parses to some record. -/
theorem parseSingleRecording_arr_isSome (l : List JVal) :
    ∃ x, parseSingleRecording (JVal.arr l) = some x :=
  ⟨_, rfl⟩

/-- On a list of recording-arrays (each starting with a string), the
top-level page dispatch and the within-page loop agree. -/
theorem parsePagesList_eq_parsePageRecs (rs : List JVal)
    (h : ∀ r ∈ rs, isArr r = true ∧ isStr (jsIdx r 0) = true) :
    parsePagesList rs = parsePageRecs rs := by
  induction rs with
  | nil => rfl
  | cons r rest ih =>
    obtain ⟨h1, h2⟩ := h r (List.mem_cons_self r rest)
    have ihr := ih (fun x hx => h x (List.mem_cons_of_mem r hx))
    cases r with
    | arr l =>
      obtain ⟨x, hx⟩ := parseSingleRecording_arr_isSome l
      simp [parsePagesList, parsePageRecs, h2, hx, ihr]
    | null => exact absurd h1 (by simp [isArr])
    | str s => exact absurd h1 (by simp [isArr])
    | num n => exact absurd h1 (by simp [isArr])

/-- Claim C4: `parseRecordingList` is invariant under one extra level of
wrapping on a valid page-of-records array, and returns the empty list for
empty or non-array input without throwing. -/
theorem c4_rewrap_invariance :
    (∀ rs : List JVal, (∀ r ∈ rs, isArr r = true ∧ isStr (jsIdx r 0) = true) →
      parseRecordingList (JVal.arr [JVal.arr rs]) = parseRecordingList (JVal.arr rs)) ∧
    parseRecordingList (JVal.arr []) = [] ∧
    (∀ v : JVal, isArr v = false → parseRecordingList v = []) := by
  refine ⟨?_, rfl, ?_⟩
  · intro rs h
    match rs, h with
    | [], _ => rfl
    | r :: rest, h =>
      obtain ⟨h1, h2⟩ := h r (List.mem_cons_self r rest)
      have hstr : isStr r = false := by
        cases r <;> simp_all [isArr, isStr]
      show parsePagesList [JVal.arr (r :: rest)] = parsePagesList (r :: rest)
      rw [parsePagesList_eq_parsePageRecs (r :: rest) h]
      have hidx : jsIdx (JVal.arr (r :: rest)) 0 = r := rfl
      simp [parsePagesList, hidx, hstr, h1]
  · intro v hv
    cases v <;> simp_all [parseRecordingList, isArr]

/-- Claim C4 (witness): re-wrapping a concrete one-record page does not
change the decode result, and non-array input decodes to the empty list. -/
theorem c4_rewrap_invariance_witness :
    parseRecordingList (JVal.arr [JVal.arr [JVal.arr [JVal.str "x"]]]) =
      parseRecordingList (JVal.arr [JVal.arr [JVal.str "x"]]) ∧
    parseRecordingList (JVal.str "nope") = [] := by
  refine ⟨c4_rewrap_invariance.1 [JVal.arr [JVal.str "x"]] ?_,
    c4_rewrap_invariance.2.2 _ rfl⟩
  intro r hr
  rw [List.mem_singleton] at hr
  subst hr
  exact ⟨rfl, rfl⟩

/-- A record is kept by the date cutoff iff the cutoff test does not fire. -/
def keepRec (s : Int) (r : Recording) : Bool := !tooOld (some s) r

/-- A scripted remote: the i-th fetch returns the i-th page of the script,
and every fetch past the script's end returns the empty page. -/
def scriptFetch (P : List (List Recording)) : Nat → Nat → Option Int → List Recording :=
  fun i _ _ => P.getD i []

/-- Index of the first scripted page containing a record older than the
cutoff (`P.length` when there is none). -/
def firstBadPage (s : Int) (P : List (List Recording)) : Nat :=
  P.findIdx (fun p => p.any (fun r => !keepRec s r))

/-- Strictly decreasing creation timestamps (newest first). -/
def datesDescending : List Recording → Bool
  | [] => true
  | [_] => true
  | a :: b :: rest =>
    (match a.createdDate, b.createdDate with
     | some da, some db => decide (db < da)
     | _, _ => false) && datesDescending (b :: rest)

theorem tooOld_none (r : Recording) : tooOld none r = false := by
  unfold tooOld
  cases r.createdDate <;> rfl

theorem any_not_keep (s : Int) :
    ∀ q : List Recording, q.any (fun r => !keepRec s r) = !q.all (keepRec s) := by
  intro q
  induction q with
  | nil => rfl
  | cons r rest ih => simp [List.any_cons, List.all_cons, ih, Bool.not_and]

theorem takeWhile_all_eq {α : Type} (p : α → Bool) :
    ∀ l : List α, l.all p = true → l.takeWhile p = l := by
  intro l
  induction l with
  | nil => intro _; rfl
  | cons a rest ih =>
    intro h
    rw [List.all_cons, Bool.and_eq_true] at h
    rw [List.takeWhile_cons, if_pos h.1, ih h.2]

theorem takeWhile_append_of_all {α : Type} (p : α → Bool) :
    ∀ (q ys : List α), q.all p = true →
      (q ++ ys).takeWhile p = q ++ ys.takeWhile p := by
  intro q ys
  induction q with
  | nil => intro _; rfl
  | cons a rest ih =>
    intro h
    rw [List.all_cons, Bool.and_eq_true] at h
    rw [List.cons_append, List.takeWhile_cons, if_pos h.1, ih h.2]
    rfl

theorem takeWhile_append_of_bad {α : Type} (p : α → Bool) :
    ∀ (q ys : List α), q.all p = false →
      (q ++ ys).takeWhile p = q.takeWhile p := by
  intro q ys
  induction q with
  | nil => intro h; simp at h
  | cons a rest ih =>
    intro h
    rw [List.all_cons] at h
    rw [List.cons_append, List.takeWhile_cons, List.takeWhile_cons]
    cases ha : p a with
    | false => rfl
    | true =>
      rw [ha, Bool.true_and] at h
      rw [if_pos rfl, if_pos rfl, ih h]

theorem datesDescending_tail (a : Recording) (rest : List Recording)
    (h : datesDescending (a :: rest) = true) : datesDescending rest = true := by
  cases rest with
  | nil => rfl
  | cons b r2 =>
    rw [datesDescending, Bool.and_eq_true] at h
    exact h.2

theorem datesDescending_bound :
    ∀ (rest : List Recording) (a : Recording) (da : Int),
      datesDescending (a :: rest) = true → a.createdDate = some da →
      ∀ r ∈ rest, ∃ d, r.createdDate = some d ∧ d < da := by
  intro rest
  induction rest with
  | nil =>
    intro a da _ _ r hr
    simp at hr
  | cons b r2 ih =>
    intro a da h hda r hr
    rw [datesDescending, Bool.and_eq_true] at h
    obtain ⟨h1, h2⟩ := h
    rw [hda] at h1
    obtain ⟨db, hdb, hlt⟩ : ∃ db, b.createdDate = some db ∧ db < da := by
      cases hb : b.createdDate with
      | none => rw [hb] at h1; simp at h1
      | some db =>
        rw [hb] at h1
        simp only [decide_eq_true_eq] at h1
        exact ⟨db, rfl, h1⟩
    rw [List.mem_cons] at hr
    rcases hr with rfl | hr
    · exact ⟨db, hdb, hlt⟩
    · obtain ⟨d, hd, hdlt⟩ := ih b db h2 hdb r hr
      exact ⟨d, hd, lt_trans hdlt hlt⟩

theorem keepRec_false_date (s : Int) (r : Recording) (h : keepRec s r = false) :
    ∃ d, r.createdDate = some d ∧ d < s := by
  rw [keepRec, Bool.not_eq_false'] at h
  unfold tooOld at h
  cases hd : r.createdDate with
  | none => rw [hd] at h; simp at h
  | some d =>
    rw [hd] at h
    simp only [decide_eq_true_eq] at h
    exact ⟨d, rfl, h⟩

theorem keepRec_false_of_lt (s : Int) (r : Recording) (d : Int)
    (hd : r.createdDate = some d) (h : d < s) : keepRec s r = false := by
  rw [keepRec, Bool.not_eq_false']
  unfold tooOld
  rw [hd]
  simp [h]

theorem takeWhile_eq_filter_of_desc (s : Int) :
    ∀ l : List Recording, datesDescending l = true →
      l.takeWhile (keepRec s) = l.filter (keepRec s) := by
  intro l
  induction l with
  | nil => intro _; rfl
  | cons a rest ih =>
    intro h
    have htail := datesDescending_tail a rest h
    cases hk : keepRec s a with
    | true =>
      rw [List.takeWhile_cons, if_pos hk, List.filter_cons, if_pos hk, ih htail]
    | false =>
      obtain ⟨da, hda, hlt⟩ := keepRec_false_date s a hk
      rw [List.takeWhile_cons, if_neg (by simp [hk]), List.filter_cons,
        if_neg (by simp [hk])]
      have : rest.filter (keepRec s) = [] := by
        rw [List.filter_eq_nil_iff]
        intro r hr
        obtain ⟨d, hd, hdlt⟩ := datesDescending_bound rest a da h hda r hr
        rw [keepRec_false_of_lt s r d hd (lt_trans hdlt hlt)]
        exact Bool.false_ne_true
      rw [this]

theorem pushRecs_some_none (s : Int) :
    ∀ (q all : List Recording),
      pushRecs (some s) none all q =
        (all ++ q.takeWhile (keepRec s), !q.all (keepRec s)) := by
  intro q
  induction q with
  | nil => intro all; simp [pushRecs]
  | cons r rest ih =>
    intro all
    cases hto : tooOld (some s) r with
    | true =>
      have hk : keepRec s r = false := by rw [keepRec, hto]; rfl
      simp [pushRecs, hto, List.takeWhile_cons, hk, List.all_cons]
    | false =>
      have hk : keepRec s r = true := by rw [keepRec, hto]; rfl
      simp [pushRecs, hto, limitReached, List.takeWhile_cons, hk, List.all_cons, ih]

theorem pushRecs_no_since (limit : Option Nat) :
    ∀ (q all : List Recording), (pushRecs none limit all q).2 = false := by
  intro q
  induction q with
  | nil => intro all; rfl
  | cons r rest ih =>
    intro all
    simp only [pushRecs, tooOld_none, Bool.false_eq_true, if_false]
    split
    · rfl
    · exact ih (all ++ [r])

theorem pushRecs_length_le (since : Option Int) (L : Nat) :
    ∀ (q all : List Recording), all.length < L →
      (pushRecs since (some L) all q).1.length ≤ L := by
  intro q
  induction q with
  | nil => intro all h; exact Nat.le_of_lt h
  | cons r rest ih =>
    intro all h
    simp only [pushRecs]
    split
    · exact Nat.le_of_lt h
    · split
      · simp only [List.length_append, List.length_singleton]
        omega
      · rename_i hnl
        apply ih
        simp only [limitReached, decide_eq_true_eq] at hnl
        simp only [List.length_append, List.length_singleton] at hnl ⊢
        omega

theorem listAllGo_calls_le {E : Type} (fetch : Nat → Nat → Option Int → List Recording)
    (limit : Option Nat) (since : Option Int) (cb : Nat → Nat → Nat → Except E Unit) :
    ∀ (fuel page calls : Nat) (all : List Recording) (cursor : Option Int)
      (l : List Recording) (c : Nat),
      listAllGo fetch limit since cb fuel page all cursor calls = Except.ok (l, c) →
      c ≤ calls + fuel := by
  intro fuel
  induction fuel with
  | zero =>
    intro page calls all cursor l c h
    simp only [listAllGo, Except.ok.injEq, Prod.mk.injEq] at h
    omega
  | succ f ih =>
    intro page calls all cursor l c h
    simp only [listAllGo] at h
    split at h
    · split at h
      · simp only [Except.ok.injEq, Prod.mk.injEq] at h
        omega
      · split at h
        · simp only [Except.ok.injEq, Prod.mk.injEq] at h
          omega
        · split at h
          · exact absurd h (by simp)
          · split at h
            · split at h
              · split at h
                · simp only [Except.ok.injEq, Prod.mk.injEq] at h
                  omega
                · have := ih _ _ _ _ _ _ h
                  omega
              · simp only [Except.ok.injEq, Prod.mk.injEq] at h
                omega
            · simp only [Except.ok.injEq, Prod.mk.injEq] at h
              omega
    · simp only [Except.ok.injEq, Prod.mk.injEq] at h
      omega

theorem listAllGo_length_le {E : Type} (fetch : Nat → Nat → Option Int → List Recording)
    (L : Nat) (since : Option Int) (cb : Nat → Nat → Nat → Except E Unit) :
    ∀ (fuel page calls : Nat) (all : List Recording) (cursor : Option Int)
      (l : List Recording) (c : Nat),
      all.length ≤ L →
      listAllGo fetch (some L) since cb fuel page all cursor calls = Except.ok (l, c) →
      l.length ≤ L := by
  intro fuel
  induction fuel with
  | zero =>
    intro page calls all cursor l c hl h
    simp only [listAllGo, Except.ok.injEq, Prod.mk.injEq] at h
    rcases h with ⟨rfl, -⟩
    exact hl
  | succ f ih =>
    intro page calls all cursor l c hl h
    simp only [listAllGo] at h
    split at h
    · rename_i hg
      have hlt : all.length < L := by
        simpa [underLimit] using hg
      split at h
      · simp only [Except.ok.injEq, Prod.mk.injEq] at h
        rcases h with ⟨rfl, -⟩
        exact hl
      · split at h
        · rename_i acc heq
          have hacc : acc.length ≤ L := by
            have hpl := pushRecs_length_le since L
              (fetch page (jsPageSize (some L) all.length) cursor) all hlt
            rw [heq] at hpl
            exact hpl
          simp only [Except.ok.injEq, Prod.mk.injEq] at h
          rcases h with ⟨rfl, -⟩
          exact hacc
        · rename_i acc heq
          have hacc : acc.length ≤ L := by
            have hpl := pushRecs_length_le since L
              (fetch page (jsPageSize (some L) all.length) cursor) all hlt
            rw [heq] at hpl
            exact hpl
          split at h
          · exact absurd h (by simp)
          · split at h
            · split at h
              · split at h
                · simp only [Except.ok.injEq, Prod.mk.injEq] at h
                  rcases h with ⟨rfl, -⟩
                  exact hacc
                · exact ih _ _ _ _ _ _ hacc h
              · simp only [Except.ok.injEq, Prod.mk.injEq] at h
                rcases h with ⟨rfl, -⟩
                exact hacc
            · simp only [Except.ok.injEq, Prod.mk.injEq] at h
              rcases h with ⟨rfl, -⟩
              exact hacc
    · simp only [Except.ok.injEq, Prod.mk.injEq] at h
      rcases h with ⟨rfl, -⟩
      exact hl

theorem listAllGo_script (s : Int) (P : List (List Recording)) :
    ∀ (Q : List (List Recording)) (page fuel calls : Nat) (all : List Recording)
      (cursor : Option Int),
      P.drop page = Q →
      fuel + page = 200 →
      page + Q.length < 200 →
      (∀ p ∈ Q, p.isEmpty = false) →
      (∀ p ∈ Q, ∀ r ∈ p, createdSecTruthy r = true) →
      listAllGo (scriptFetch P) none (some s) okCb fuel page all cursor calls =
        Except.ok (all ++ Q.flatten.takeWhile (keepRec s),
          calls + min (firstBadPage s Q + 1) (Q.length + 1)) := by
  intro Q
  induction Q with
  | nil =>
    intro page fuel calls all cursor hdrop hfuel hlen hne hsec
    obtain ⟨f, rfl⟩ : ∃ f, fuel = f + 1 := ⟨fuel - 1, by omega⟩
    have hlenP : P.length ≤ page := by
      have hc := congrArg List.length hdrop
      rw [List.length_drop] at hc
      simp only [List.length_nil] at hc
      omega
    have hnone : P[page]? = none := List.getElem?_eq_none hlenP
    simp [listAllGo, underLimit, scriptFetch, hnone, firstBadPage]
  | cons q rest ih =>
    intro page fuel calls all cursor hdrop hfuel hlen hne hsec
    obtain ⟨f, rfl⟩ : ∃ f, fuel = f + 1 := ⟨fuel - 1, by omega⟩
    rw [List.length_cons] at hlen
    have hget : P.getD page [] = q := by
      have h1 : P[page]? = some q := by
        rw [← List.head?_drop, hdrop, List.head?_cons]
      simp [List.getD_eq_getElem?_getD, h1]
    have hqne : q.isEmpty = false := hne q (List.mem_cons_self q rest)
    have hdrop2 : P.drop (page + 1) = rest := by
      have h2 : (P.drop page).drop 1 = rest := by rw [hdrop]; simp
      rw [List.drop_drop] at h2
      exact h2
    obtain ⟨last, hlast⟩ : ∃ last, q.getLast? = some last := by
      rw [← Option.isSome_iff_exists]
      cases q with
      | nil => simp at hqne
      | cons x xs => simp
    have hsl : createdSecTruthy last = true :=
      hsec q (List.mem_cons_self q rest) last (List.mem_of_mem_getLast? hlast)
    have hUL : underLimit none all.length = true := rfl
    simp only [listAllGo]
    rw [if_pos hUL,
      show scriptFetch P page (jsPageSize none all.length) cursor = q from hget, hqne]
    rw [if_neg Bool.false_ne_true, pushRecs_some_none s q all]
    cases hall : q.all (keepRec s) with
    | true =>
      rw [takeWhile_all_eq (keepRec s) q hall]
      simp only [Bool.not_true, okCb, hlast]
      rw [if_pos hsl]
      rw [if_neg (show ¬(200 ≤ page + 1) by omega)]
      rw [ih (page + 1) f (calls + 1) (all ++ q) last.createdSec hdrop2 (by omega)
        (by omega) (fun p hp => hne p (List.mem_cons_of_mem q hp))
        (fun p hp => hsec p (List.mem_cons_of_mem q hp))]
      simp only [Except.ok.injEq, Prod.mk.injEq]
      constructor
      · rw [List.flatten_cons, takeWhile_append_of_all (keepRec s) q rest.flatten hall,
          List.append_assoc]
      · have hfb : firstBadPage s (q :: rest) = firstBadPage s rest + 1 := by
          rw [firstBadPage, List.findIdx_cons, any_not_keep s q, hall]
          simp [firstBadPage]
        rw [hfb, List.length_cons]
        omega
    | false =>
      simp only [Bool.not_false]
      simp only [Except.ok.injEq, Prod.mk.injEq]
      constructor
      · rw [List.flatten_cons, takeWhile_append_of_bad (keepRec s) q rest.flatten hall]
      · have hfb : firstBadPage s (q :: rest) = 0 := by
          rw [firstBadPage, List.findIdx_cons, any_not_keep s q, hall]
          rfl
        rw [hfb, List.length_cons]
        omega

/-- Claim C5: against a scripted remote whose concatenated pages all carry
truthy creation timestamps, with no limit and a `since` cutoff,
`listAllRecordings` returns exactly the prefix of the record stream up to
(excluding) the first record strictly older than the cutoff, and fetches no
page beyond the one containing it (fetch count = min(firstBadPage+1,
pages+1)); with strictly decreasing timestamps that prefix is exactly the
records with createdDate ≥ since.  For arbitrary remotes: at most 200
fetches ever happen, at most `limit` records are returned, and an empty
first page stops pagination immediately after one fetch. -/
theorem c5_pagination_cutoff :
    (∀ (P : List (List Recording)) (s : Int),
      P.length < 200 →
      (∀ p ∈ P, p.isEmpty = false) →
      (∀ p ∈ P, ∀ r ∈ p, createdSecTruthy r = true) →
      (listAllRecordings (scriptFetch P) none (some s) okCb =
        Except.ok (P.flatten.takeWhile (keepRec s),
          min (firstBadPage s P + 1) (P.length + 1))) ∧
      (datesDescending P.flatten = true →
        P.flatten.takeWhile (keepRec s) = P.flatten.filter (keepRec s))) ∧
    (∀ (E : Type) (fetch : Nat → Nat → Option Int → List Recording)
      (limit : Option Nat) (since : Option Int) (cb : Nat → Nat → Nat → Except E Unit)
      (l : List Recording) (c : Nat),
      listAllRecordings fetch limit since cb = Except.ok (l, c) → c ≤ 200) ∧
    (∀ (E : Type) (fetch : Nat → Nat → Option Int → List Recording)
      (L : Nat) (since : Option Int) (cb : Nat → Nat → Nat → Except E Unit)
      (l : List Recording) (c : Nat),
      listAllRecordings fetch (some L) since cb = Except.ok (l, c) → l.length ≤ L) ∧
    (∀ (E : Type) (fetch : Nat → Nat → Option Int → List Recording)
      (limit : Option Nat) (since : Option Int) (cb : Nat → Nat → Nat → Except E Unit),
      underLimit limit 0 = true →
      fetch 0 (jsPageSize limit 0) none = [] →
      listAllRecordings fetch limit since cb = Except.ok ([], 1)) := by
  refine ⟨?_, ?_, ?_, ?_⟩
  · intro P s hP hne hsec
    constructor
    · have h := listAllGo_script s P P 0 200 0 [] none (List.drop_zero P) rfl
        (by omega) hne hsec
      rw [listAllRecordings, h]
      simp only [List.nil_append, Nat.zero_add]
    · intro hd
      exact takeWhile_eq_filter_of_desc s P.flatten hd
  · intro E fetch limit since cb l c h
    have := listAllGo_calls_le fetch limit since cb 200 0 0 [] none l c h
    omega
  · intro E fetch L since cb l c h
    exact listAllGo_length_le fetch L since cb 200 0 0 [] none l c (by simp) h
  · intro E fetch limit since cb h0 hempty
    show listAllGo fetch limit since cb (199 + 1) 0 [] none 0 = Except.ok ([], 1)
    generalize (199 : Nat) = f
    simp only [listAllGo, List.length_nil]
    rw [if_pos h0, hempty]
    rfl

/-- A concrete recording created at epoch second 100. -/
def recNew : Recording :=
  { internalId := .str "a", title := .str "new", createdSec := some 100,
    createdDate := some 100000, durationSec := none, duration := none,
    latitude := .null, longitude := .null, location := .null,
    audioFormat := .null, cloudId := .null, shareId := .null }

/-- A concrete recording created at epoch second 50. -/
def recOld : Recording :=
  { internalId := .str "b", title := .str "old", createdSec := some 50,
    createdDate := some 50000, durationSec := none, duration := none,
    latitude := .null, longitude := .null, location := .null,
    audioFormat := .null, cloudId := .null, shareId := .null }

/-- Claim C5 (witness): two one-record pages (creation ms 100000 then 50000)
and cutoff 60000 — the loop returns only the newer record after exactly two
fetches; the kept prefix equals the date filter; an always-empty remote
stops after one fetch. -/
theorem c5_pagination_cutoff_witness :
    listAllRecordings (scriptFetch [[recNew], [recOld]]) none (some 60000) okCb =
      Except.ok ([recNew], 2) ∧
    [recNew, recOld].takeWhile (keepRec 60000) =
      [recNew, recOld].filter (keepRec 60000) ∧
    listAllRecordings (fun _ _ _ => ([] : List Recording)) none none okCb =
      Except.ok ([], 1) := by
  obtain ⟨h1, h2⟩ := c5_pagination_cutoff.1 [[recNew], [recOld]] 60000 (by decide)
    (by decide) (by decide)
  refine ⟨?_, ?_, ?_⟩
  · rw [h1]
    rfl
  · exact h2 (by decide)
  · exact c5_pagination_cutoff.2.2.2 Unit (fun _ _ _ => []) none none okCb rfl rfl

/-- Claim C8 (counterexample): with a one-page remote and no date cutoff,
a throwing `onPage` callback makes `listAllRecordings` reject with the
callback's error, while the benign-callback run returns the page — the
results differ, refuting "the returned list is the same as with a
non-throwing callback". -/
theorem c8_onpage_throw_cex :
    listAllRecordings (scriptFetch [[recNew]]) none none
      (fun _ _ _ => Except.error ()) = Except.error () ∧
    listAllRecordings (scriptFetch [[recNew]]) none none okCb =
      Except.ok ([recNew], 2) ∧
    (Except.error () : Except Unit (List Recording × Nat)) ≠
      Except.ok ([recNew], 2) := by
  refine ⟨rfl, rfl, by simp⟩

/-- Claim C8 (amended): the loop body has no handler around `onPage`, so a
throwing callback aborts pagination: whenever the first page is non-empty
and there is no date cutoff, an always-throwing callback's error propagates
and no list is returned. -/
theorem c8_onpage_throw_aborts (E : Type) (e : E)
    (fetch : Nat → Nat → Option Int → List Recording) (limit : Option Nat)
    (h0 : underLimit limit 0 = true)
    (hne : (fetch 0 (jsPageSize limit 0) none).isEmpty = false) :
    listAllRecordings fetch limit none (fun _ _ _ => Except.error e) =
      Except.error e := by
  show listAllGo fetch limit none (fun _ _ _ => Except.error e) (199 + 1) 0 [] none 0 =
    Except.error e
  simp only [listAllGo, List.length_nil]
  rw [if_pos h0, hne]
  rw [if_neg Bool.false_ne_true]
  rcases hp : pushRecs none limit [] (fetch 0 (jsPageSize limit 0) none) with ⟨acc, b⟩
  have hb : b = false := by
    have hsnd := pushRecs_no_since limit (fetch 0 (jsPageSize limit 0) none) []
    rw [hp] at hsnd
    exact hsnd
  subst hb
  rfl

/-- Claim C8 (amended, witness): the abort at a concrete one-page remote. -/
theorem c8_onpage_throw_aborts_witness :
    listAllRecordings (scriptFetch [[recOld]]) none none
      (fun _ _ _ => Except.error ()) = Except.error () :=
  c8_onpage_throw_aborts Unit () (scriptFetch [[recOld]]) none rfl rfl
